import Mathlib

/-!
Shallow embedding of the lane-polygon trajectory-counting scripts
(`lanePolygonsNTrajectoryCount_v3.5.py` and `lanePolygonsNTrajectoryCount.py`).

Geometry is delegated by the scripts to the QGIS geometry library
(an external collaborator): here a geometry is modelled concretely as a
finite list of integer grid points, with `intersects` meaning "shares a
point" and an axis-aligned bounding box derived from the points.  The
buffer / simplify / dissolve / split-with-lines algorithms the scripts
invoke through `processing.run` are modelled as parameters (`GeomOps`),
since the scripts only sequence them.  Everything downstream of lane
creation — the spatial index, the counting loop, the dedup accumulator,
and the scaling/finalization — is translated statement by statement.
-/

namespace LaneCount

/-- Point on the integer grid. -/
abbrev Pt := Int × Int

/-- Concrete stand-in for a QGIS geometry: a finite set of grid points,
kept as a list. -/
structure Geom where
  pts : List Pt
deriving DecidableEq, Repr

/-- Mirrors `geom.isEmpty()`. -/
def Geom.isEmpty (g : Geom) : Bool := g.pts.isEmpty

/-- Mirrors `a.intersects(b)` of the geometry library: the two point sets
share at least one point. -/
def Geom.intersects (a b : Geom) : Bool := a.pts.any (fun p => b.pts.contains p)

/-- Axis-aligned bounding rectangle, mirroring `QgsRectangle`. -/
structure BBox where
  xmin : Int
  ymin : Int
  xmax : Int
  ymax : Int
deriving DecidableEq, Repr

/-- Fold computing the minimum of `a` and the elements of `xs`. -/
def foldMin (a : Int) (xs : List Int) : Int := xs.foldl min a

/-- Fold computing the maximum of `a` and the elements of `xs`. -/
def foldMax (a : Int) (xs : List Int) : Int := xs.foldl max a

/-- Mirrors `geom.boundingBox()`.  Only ever used on non-empty geometries
(the counting loop skips empty ones first). -/
def Geom.boundingBox (g : Geom) : BBox :=
  match g.pts with
  | [] => ⟨0, 0, 0, 0⟩
  | p :: rest =>
      ⟨foldMin p.1 (rest.map Prod.fst), foldMin p.2 (rest.map Prod.snd),
       foldMax p.1 (rest.map Prod.fst), foldMax p.2 (rest.map Prod.snd)⟩

/-- Rectangle intersection test used by `QgsSpatialIndex.intersects`. -/
def BBox.overlaps (a b : BBox) : Bool :=
  decide (a.xmin ≤ b.xmax) && decide (b.xmin ≤ a.xmax) &&
  decide (a.ymin ≤ b.ymax) && decide (b.ymin ≤ a.ymax)

/-- One feature of the trajectory layer: feature id (`@id` in QGIS
expressions), polyline geometry, and the attributes `seconds_start` and
`group_id` read by the scripts. -/
structure TrajRecord where
  fid : Nat
  geom : Geom
  seconds_start : Int
  group_id : String
deriving DecidableEq, Repr

/-- One feature of the output lane layer: feature id assigned by the
memory provider, the `ENVIID` attribute, the lane polygon, the 24 hourly
count attributes `h_0 .. h_23` (modelled as a function, read at 0..23),
and `total_cnt` (present only in the v3.5 schema; the other variant
leaves it at its initial value). -/
structure OutFeature where
  lfid : Nat
  enviid : String
  geom : Geom
  hcounts : Nat → Nat
  total_cnt : Nat

/-- Configuration constant `WINDOWS` of both scripts. -/
def WINDOWS : List (Nat × Nat) := [(6, 9), (16, 19)]

/-- Configuration constant `SAMPLING_RATE` of both scripts. -/
def SAMPLING_RATE : Nat := 6

/-- Configuration constant `SCALING_FACTOR` of both scripts. -/
def SCALING_FACTOR : Nat := 5

/-- Time-window disjunction of the extraction expression:
`("seconds_start" >= s*3600 AND "seconds_start" < e*3600)` OR-ed over the
configured windows. -/
def inWindows (windows : List (Nat × Nat)) (secs : Int) : Bool :=
  windows.any (fun w => decide (((w.1 : Int)) * 3600 ≤ secs) && decide (secs < ((w.2 : Int)) * 3600))

/-- Full extraction expression
`(time windows) AND (@id % SAMPLING_RATE = 0)` evaluated on one feature. -/
def sampleExpr (windows : List (Nat × Nat)) (k : Nat) (r : TrajRecord) : Bool :=
  inWindows windows r.seconds_start && (r.fid % k == 0)

/-- Mirrors `processing.run("native:extractbyexpression", ...)`: keep the
features satisfying the expression. -/
def extractByExpression (windows : List (Nat × Nat)) (k : Nat)
    (trajs : List TrajRecord) : List TrajRecord :=
  trajs.filter (sampleExpr windows k)

/-- Mirrors the format string `f"{n:06d}"`. -/
def zeroPad6 (n : Nat) : String :=
  let s := toString n
  String.mk (List.replicate (6 - s.length) '0') ++ s

/-- Step 2 of the scripts: one output feature per split lane polygon, with
`ENVIID = f"{i+1:06d}"`, all hourly counts 0, `total_cnt` 0.  The memory
provider assigns sequential feature ids starting at 1 in insertion
order. -/
def prepareOut (laneGeoms : List Geom) : List OutFeature :=
  laneGeoms.enum.map (fun p =>
    { lfid := p.1 + 1, enviid := zeroPad6 (p.1 + 1), geom := p.2,
      hcounts := fun _ => 0, total_cnt := 0 })

/-- The accumulator `counts_map : { lane_fid : { hour : set(group_ids) } }`,
modelled as a total function on lane fid and hour. -/
abbrev CountsMap := Nat → Nat → Finset String

/-- Initial accumulator: every cell is the empty set. -/
def initCounts : CountsMap := fun _ _ => ∅

/-- Mirrors `counts_map[l_id][start_hour].add(group_id)`. -/
def addGroup (cm : CountsMap) (lid h : Nat) (g : String) : CountsMap :=
  fun l' h' => if l' = lid ∧ h' = h then insert g (cm l' h') else cm l' h'

/-- Mirrors `spatial_index.intersects(bbox)`: the feature ids of the lanes
whose bounding box overlaps the query rectangle. -/
def spatialQuery (lanes : List OutFeature) (bb : BBox) : List Nat :=
  (lanes.filter (fun l => bb.overlaps l.geom.boundingBox)).map OutFeature.lfid

/-- Mirrors `out_layer.getFeature(l_id)`. -/
def getFeature (lanes : List OutFeature) (lid : Nat) : Option OutFeature :=
  lanes.find? (fun l => l.lfid == lid)

/-- Body of the inner candidate loop:
`lane_feat = out_layer.getFeature(l_id);`
`if lane_feat.geometry().intersects(geom): counts_map[l_id][start_hour].add(group_id)`. -/
def candStep (lanes : List OutFeature) (rgeom : Geom) (hr : Nat) (g : String)
    (m : CountsMap) (lid : Nat) : CountsMap :=
  match getFeature lanes lid with
  | none => m
  | some lane =>
      if lane.geom.intersects rgeom then addGroup m lid hr g else m

/-- Whether the candidate with feature id `lid` passes the exact
intersection test against `rgeom`. -/
def shouldAdd (lanes : List OutFeature) (rgeom : Geom) (lid : Nat) : Bool :=
  match getFeature lanes lid with
  | none => false
  | some lane => lane.geom.intersects rgeom

/-- One iteration of the counting loop over a trajectory feature:
skip empty geometry, compute `start_hour = int(seconds_start // 3600)`
(Python floor division), skip if `start_hour < 0 or start_hour > 23`,
then run the candidate loop over the spatial-index query result. -/
def processTraj (lanes : List OutFeature) (cm : CountsMap) (traj : TrajRecord) : CountsMap :=
  if traj.geom.isEmpty then cm else
  let start_hour : Int := Int.fdiv traj.seconds_start 3600
  if start_hour < 0 ∨ 23 < start_hour then cm else
  (spatialQuery lanes traj.geom.boundingBox).foldl
    (candStep lanes traj.geom start_hour.toNat traj.group_id) cm

/-- Step 3 of the scripts: the whole counting pass over the trajectory
layer, starting from the all-empty accumulator. -/
def countingPass (lanes : List OutFeature) (trajs : List TrajRecord) : CountsMap :=
  trajs.foldl (processTraj lanes) initCounts

/-- The conjunction of per-record conditions under which the counting loop
records `r.group_id` in cell `(l.lfid, h)`: non-empty geometry, start hour
`h`, and exact intersection with the lane polygon. -/
def recordHits (l : OutFeature) (h : Nat) (r : TrajRecord) : Bool :=
  !r.geom.isEmpty && (Int.fdiv r.seconds_start 3600 == (h : Int)) && l.geom.intersects r.geom

/-- Lane feature ids are pairwise distinct (true of the memory layer the
scripts build, where fids are assigned sequentially). -/
def noDupFids (lanes : List OutFeature) : Prop :=
  (lanes.map OutFeature.lfid).Nodup

instance (lanes : List OutFeature) : Decidable (noDupFids lanes) := by
  unfold noDupFids; infer_instance

/-- Mirrors `count *= SCALING_FACTOR` guarded by `SCALING_ENABLED`. -/
def scaleCount (se : Bool) (k c : Nat) : Nat := if se then c * k else c

/-- The `daily_unique` accumulation of v3.5:
`for h in range(24): daily_unique.update(h_data[h])` — the union of the 24
raw (unscaled) per-hour group-id sets of one lane. -/
def dailySet (cm : CountsMap) (lid : Nat) : Finset String :=
  (List.range 24).foldl (fun acc h => acc ∪ cm lid h) ∅

/-- Step 4 of `lanePolygonsNTrajectoryCount_v3.5.py` on one lane feature:
each hourly attribute becomes `len(h_data[h])`, scaled if enabled, and
`total_cnt` becomes `len(daily_unique)`, scaled if enabled.  Attributes
other than `h_0 .. h_23` and `total_cnt` are not in the update map. -/
def finalizeFeature35 (se : Bool) (k : Nat) (cm : CountsMap) (f : OutFeature) : OutFeature :=
  { f with
    hcounts := fun h => if h < 24 then scaleCount se k (cm f.lfid h).card else f.hcounts h,
    total_cnt := scaleCount se k (dailySet cm f.lfid).card }

/-- Step 6 of `lanePolygonsNTrajectoryCount.py` on one lane feature: the
same hourly update, with no `total_cnt` attribute. -/
def finalizeFeatureV1 (se : Bool) (k : Nat) (cm : CountsMap) (f : OutFeature) : OutFeature :=
  { f with
    hcounts := fun h => if h < 24 then scaleCount se k (cm f.lfid h).card else f.hcounts h }

/-- `out_dp.changeAttributeValues(updates)` over the whole v3.5 layer. -/
def finalizeLayer35 (se : Bool) (k : Nat) (cm : CountsMap) (lanes : List OutFeature) :
    List OutFeature :=
  lanes.map (finalizeFeature35 se k cm)

/-- `out_dp.changeAttributeValues(updates)` over the whole layer of the
variant without `total_cnt`. -/
def finalizeLayerV1 (se : Bool) (k : Nat) (cm : CountsMap) (lanes : List OutFeature) :
    List OutFeature :=
  lanes.map (finalizeFeatureV1 se k cm)

/-- Errors on which `main()` returns early (each an `ERROR:` print followed
by `return`, with no output written). -/
inductive RunError where
  | missingInputs
  | invalidLayers
  | nonMetricCrs
  | areaMissing
  | areaInvalid
deriving DecidableEq, Repr

/-- The records the script hands to the vector-file writer on success. -/
structure RunOutput where
  lanes : List OutFeature

/-- The geometry algorithms the scripts delegate to `processing.run` /
QGIS: per-feature buffer and simplify, layer-level dissolve and
split-with-lines, and the optional clip of the non-v3.5 variant.  The
scripts only sequence these. -/
structure GeomOps where
  buffer : Geom → Geom
  simplify : Geom → Geom
  dissolve : List Geom → List Geom
  splitWithLines : List Geom → List Geom → List Geom
  clip : List TrajRecord → List Geom → List TrajRecord

/-- The configuration constants of the scripts, as an explicit record. -/
structure Config where
  scalingEnabled : Bool
  scalingFactor : Nat
  clipToStudyArea : Bool
  samplingRate : Nat
  windows : List (Nat × Nat)

/-- In-memory view of the run's inputs: the file-existence / layer-validity
/ CRS facts the scripts test, plus the loaded collections. -/
structure RunInput where
  trajFileExists : Bool
  interFileExists : Bool
  trajValid : Bool
  interValid : Bool
  trajCrsGeographic : Bool
  interCrsGeographic : Bool
  areaFileExists : Bool
  areaValid : Bool
  areaCrsGeographic : Bool
  trajs : List TrajRecord
  interGeoms : List Geom
  areaGeoms : List Geom

/-- Step 1 of the scripts: extraction by expression, then
buffer → simplify → dissolve → split-with-lines, then the output-layer
preparation. -/
def buildLanes (ops : GeomOps) (cfg : Config) (working : List TrajRecord)
    (interGeoms : List Geom) : List OutFeature :=
  let extracted := extractByExpression cfg.windows cfg.samplingRate working
  let buffered := extracted.map (fun r => ops.buffer r.geom)
  let simplified := buffered.map ops.simplify
  let dissolved := ops.dissolve simplified
  let laneGeoms := ops.splitWithLines dissolved interGeoms
  prepareOut laneGeoms

/-- Control flow of `main()` in `lanePolygonsNTrajectoryCount_v3.5.py`:
file checks, layer-validity checks, metric-CRS check on the trajectory and
intersection layers, then lane building, counting, finalization, output. -/
def main35 (ops : GeomOps) (cfg : Config) (inp : RunInput) : Except RunError RunOutput :=
  if ¬ (inp.trajFileExists ∧ inp.interFileExists) then .error .missingInputs
  else if ¬ (inp.trajValid ∧ inp.interValid) then .error .invalidLayers
  else if inp.trajCrsGeographic ∨ inp.interCrsGeographic then .error .nonMetricCrs
  else
    let outFeats := buildLanes ops cfg inp.trajs inp.interGeoms
    let cm := countingPass outFeats inp.trajs
    .ok ⟨finalizeLayer35 cfg.scalingEnabled cfg.scalingFactor cm outFeats⟩

/-- Control flow of `main()` in `lanePolygonsNTrajectoryCount.py`: the same
checks (the study-area layer is checked for existence and validity when
clipping is on, but its CRS is never tested), optional clip, lane
building, counting, finalization without `total_cnt`, output. -/
def mainFull (ops : GeomOps) (cfg : Config) (inp : RunInput) : Except RunError RunOutput :=
  if ¬ (inp.trajFileExists ∧ inp.interFileExists) then .error .missingInputs
  else if ¬ (inp.trajValid ∧ inp.interValid) then .error .invalidLayers
  else if inp.trajCrsGeographic ∨ inp.interCrsGeographic then .error .nonMetricCrs
  else if cfg.clipToStudyArea ∧ ¬ inp.areaFileExists then .error .areaMissing
  else if cfg.clipToStudyArea ∧ ¬ inp.areaValid then .error .areaInvalid
  else
    let working := if cfg.clipToStudyArea then ops.clip inp.trajs inp.areaGeoms else inp.trajs
    let outFeats := buildLanes ops cfg working inp.interGeoms
    let cm := countingPass outFeats working
    .ok ⟨finalizeLayerV1 cfg.scalingEnabled cfg.scalingFactor cm outFeats⟩

/-- Trivial instantiation of the delegated geometry algorithms, used to
evaluate the pipeline on concrete inputs. -/
def ops0 : GeomOps :=
  { buffer := id, simplify := id, dissolve := id,
    splitWithLines := fun gs _ => gs, clip := fun ts _ => ts }

/-- The scripts' default configuration. -/
def cfg0 : Config :=
  { scalingEnabled := true, scalingFactor := SCALING_FACTOR,
    clipToStudyArea := true, samplingRate := SAMPLING_RATE, windows := WINDOWS }

/-- A trajectory starting at midnight: outside every configured window. -/
def offPeakTraj : TrajRecord :=
  { fid := 0, geom := ⟨[(0, 0)]⟩, seconds_start := 0, group_id := "A" }

/-- Well-formed inputs whose only trajectory fails the sampling
predicate, so the extracted sample is empty. -/
def inpEmptySample : RunInput :=
  { trajFileExists := true, interFileExists := true, trajValid := true,
    interValid := true, trajCrsGeographic := false, interCrsGeographic := false,
    areaFileExists := true, areaValid := true, areaCrsGeographic := false,
    trajs := [offPeakTraj], interGeoms := [], areaGeoms := [] }

/-- Inputs whose study-area layer is in a geographic CRS while the
trajectory and intersection layers are metric. -/
def inpBadAreaCrs : RunInput :=
  { trajFileExists := true, interFileExists := true, trajValid := true,
    interValid := true, trajCrsGeographic := false, interCrsGeographic := false,
    areaFileExists := true, areaValid := true, areaCrsGeographic := true,
    trajs := [], interGeoms := [], areaGeoms := [⟨[(0, 0)]⟩] }

/-- Inputs whose trajectory layer is in a geographic CRS. -/
def inpBadTrajCrs : RunInput :=
  { trajFileExists := true, interFileExists := true, trajValid := true,
    interValid := true, trajCrsGeographic := true, interCrsGeographic := false,
    areaFileExists := true, areaValid := true, areaCrsGeographic := false,
    trajs := [], interGeoms := [], areaGeoms := [] }

/-- A peak-hour trajectory whose feature id is its 0-based position. -/
def peakTraj (i : Nat) : TrajRecord :=
  { fid := i, geom := ⟨[((i : Int), 0)]⟩, seconds_start := 6 * 3600, group_id := "g" }

/-- Twelve in-window trajectories at positions 0..11. -/
def twelvePeak : List TrajRecord := (List.range 12).map peakTraj

/-- Polygon of the first example lane. -/
def laneGeomA : Geom := ⟨[(0, 0), (1, 0)]⟩

/-- Polygon of the second example lane, disjoint from the first. -/
def laneGeomB : Geom := ⟨[(5, 5), (6, 5)]⟩

/-- First example lane feature. -/
def laneA : OutFeature :=
  { lfid := 1, enviid := zeroPad6 1, geom := laneGeomA,
    hcounts := fun _ => 0, total_cnt := 0 }

/-- Second example lane feature. -/
def laneB : OutFeature :=
  { lfid := 2, enviid := zeroPad6 2, geom := laneGeomB,
    hcounts := fun _ => 0, total_cnt := 0 }

/-- Example lane layer with two lanes. -/
def lanesAB : List OutFeature := [laneA, laneB]

/-- Record of group "B" crossing the first lane at hour 7. -/
def trajB1 : TrajRecord :=
  { fid := 0, geom := ⟨[(0, 0)]⟩, seconds_start := 27000, group_id := "B" }

/-- Second record of the same group "B", also crossing the first lane at
hour 7 through a different point. -/
def trajB2 : TrajRecord :=
  { fid := 1, geom := ⟨[(1, 0)]⟩, seconds_start := 27130, group_id := "B" }

/-- Record of group "G" whose polyline crosses both example lanes,
starting at hour 7. -/
def trajBoth : TrajRecord :=
  { fid := 2, geom := ⟨[(0, 0), (5, 5)]⟩, seconds_start := 27000, group_id := "G" }

/-- Record starting at 24:00 (`seconds_start = 86400`, hour 24). -/
def traj86400 : TrajRecord :=
  { fid := 3, geom := ⟨[(0, 0)]⟩, seconds_start := 86400, group_id := "X" }

/-- Example accumulator with one group recorded for lane fid 1 at hour 7. -/
def cmExample : CountsMap := addGroup initCounts 1 7 "A"

/-- Folded minimum is bounded by its initial value. -/
theorem foldMin_le_init (xs : List Int) (a : Int) : foldMin a xs ≤ a := by
  induction xs generalizing a with
  | nil => simp [foldMin]
  | cons x xs ih =>
      calc foldMin a (x :: xs) = foldMin (min a x) xs := rfl
        _ ≤ min a x := ih (min a x)
        _ ≤ a := min_le_left a x

/-- Folded minimum is bounded by every list element. -/
theorem foldMin_le_mem (xs : List Int) (a x : Int) (hx : x ∈ xs) : foldMin a xs ≤ x := by
  induction xs generalizing a with
  | nil => simp at hx
  | cons y ys ih =>
      rcases List.mem_cons.mp hx with rfl | hmem
      · calc foldMin a (x :: ys) = foldMin (min a x) ys := rfl
          _ ≤ min a x := foldMin_le_init ys (min a x)
          _ ≤ x := min_le_right a x
      · exact ih (min a y) hmem

/-- Folded maximum dominates its initial value. -/
theorem init_le_foldMax (xs : List Int) (a : Int) : a ≤ foldMax a xs := by
  induction xs generalizing a with
  | nil => simp [foldMax]
  | cons x xs ih =>
      calc a ≤ max a x := le_max_left a x
        _ ≤ foldMax (max a x) xs := ih (max a x)
        _ = foldMax a (x :: xs) := rfl

/-- Folded maximum dominates every list element. -/
theorem mem_le_foldMax (xs : List Int) (a x : Int) (hx : x ∈ xs) : x ≤ foldMax a xs := by
  induction xs generalizing a with
  | nil => simp at hx
  | cons y ys ih =>
      rcases List.mem_cons.mp hx with rfl | hmem
      · calc x ≤ max a x := le_max_right a x
          _ ≤ foldMax (max a x) ys := init_le_foldMax ys (max a x)
          _ = foldMax a (x :: ys) := rfl
      · exact ih (max a y) hmem

/-- Every point of a geometry lies inside its bounding box. -/
theorem boundingBox_bounds (g : Geom) (p : Pt) (hp : p ∈ g.pts) :
    g.boundingBox.xmin ≤ p.1 ∧ p.1 ≤ g.boundingBox.xmax ∧
    g.boundingBox.ymin ≤ p.2 ∧ p.2 ≤ g.boundingBox.ymax := by
  rcases g with ⟨pts⟩
  cases pts with
  | nil => simp at hp
  | cons q rest =>
      show foldMin q.1 (rest.map Prod.fst) ≤ p.1 ∧ p.1 ≤ foldMax q.1 (rest.map Prod.fst) ∧
        foldMin q.2 (rest.map Prod.snd) ≤ p.2 ∧ p.2 ≤ foldMax q.2 (rest.map Prod.snd)
      rcases List.mem_cons.mp hp with rfl | hmem
      · exact ⟨foldMin_le_init _ _, init_le_foldMax _ _,
          foldMin_le_init _ _, init_le_foldMax _ _⟩
      · have h1 : p.1 ∈ rest.map Prod.fst := List.mem_map_of_mem Prod.fst hmem
        have h2 : p.2 ∈ rest.map Prod.snd := List.mem_map_of_mem Prod.snd hmem
        exact ⟨foldMin_le_mem _ _ _ h1, mem_le_foldMax _ _ _ h1,
          foldMin_le_mem _ _ _ h2, mem_le_foldMax _ _ _ h2⟩

/-- Bounding-box overlap is symmetric. -/
theorem overlaps_true_comm (a b : BBox) :
    BBox.overlaps a b = true ↔ BBox.overlaps b a = true := by
  simp only [BBox.overlaps, Bool.and_eq_true, decide_eq_true_eq]
  tauto

/-- Exactly intersecting geometries have overlapping bounding boxes, so
the coarse spatial-index filter never loses an exact hit. -/
theorem intersects_overlaps (a b : Geom) (h : a.intersects b = true) :
    BBox.overlaps a.boundingBox b.boundingBox = true := by
  unfold Geom.intersects at h
  rw [List.any_eq_true] at h
  obtain ⟨p, hpa, hpb⟩ := h
  have hpb' : p ∈ b.pts := by simpa using hpb
  obtain ⟨ha1, ha2, ha3, ha4⟩ := boundingBox_bounds a p hpa
  obtain ⟨hb1, hb2, hb3, hb4⟩ := boundingBox_bounds b p hpb'
  simp only [BBox.overlaps, Bool.and_eq_true, decide_eq_true_eq]
  omega

/-- On a layer with pairwise-distinct feature ids, `getFeature` of a
member's id returns that member. -/
theorem getFeature_eq_some (lanes : List OutFeature) (l : OutFeature)
    (hn : noDupFids lanes) (hl : l ∈ lanes) : getFeature lanes l.lfid = some l := by
  induction lanes with
  | nil => simp at hl
  | cons f fs ih =>
      unfold noDupFids at hn
      rw [List.map_cons, List.nodup_cons] at hn
      obtain ⟨hnotin, hnd⟩ := hn
      rcases List.mem_cons.mp hl with rfl | hmem
      · simp [getFeature, List.find?_cons]
      · have hne : (f.lfid == l.lfid) = false := by
          rw [beq_eq_false_iff_ne]
          intro hEq
          exact hnotin (hEq ▸ List.mem_map_of_mem OutFeature.lfid hmem)
        show List.find? (fun l' => l'.lfid == l.lfid) (f :: fs) = some l
        rw [List.find?_cons, hne]
        exact ih hnd hmem

/-- A lane whose bounding box overlaps the query rectangle is among the
spatial-index candidates. -/
theorem mem_spatialQuery (lanes : List OutFeature) (bb : BBox) (l : OutFeature)
    (hl : l ∈ lanes) (hov : bb.overlaps l.geom.boundingBox = true) :
    l.lfid ∈ spatialQuery lanes bb :=
  List.mem_map_of_mem OutFeature.lfid (List.mem_filter.mpr ⟨hl, hov⟩)

/-- Effect of one candidate-loop iteration on one accumulator cell. -/
theorem candStep_apply (lanes : List OutFeature) (rgeom : Geom) (hr : Nat) (g : String)
    (m : CountsMap) (lid L hcell : Nat) :
    candStep lanes rgeom hr g m lid L hcell =
      if L = lid ∧ hcell = hr ∧ shouldAdd lanes rgeom lid = true
      then insert g (m L hcell) else m L hcell := by
  unfold candStep shouldAdd
  cases hf : getFeature lanes lid with
  | none => simp
  | some lane =>
      by_cases hint : lane.geom.intersects rgeom = true
      · simp only [hint, if_true, addGroup, and_true]
      · simp [hint]

/-- Effect of the whole candidate loop on one accumulator cell: the
group id is inserted exactly when the cell's lane is a candidate passing
the exact test and the cell's hour is the record's start hour. -/
theorem foldl_candStep_apply (lanes : List OutFeature) (rgeom : Geom) (hr : Nat)
    (g : String) (cands : List Nat) (cm : CountsMap) (L hcell : Nat) :
    (cands.foldl (candStep lanes rgeom hr g) cm) L hcell =
      if L ∈ cands ∧ shouldAdd lanes rgeom L = true ∧ hcell = hr
      then insert g (cm L hcell) else cm L hcell := by
  induction cands generalizing cm with
  | nil => simp
  | cons c cs ih =>
      rw [List.foldl_cons, ih, candStep_apply]
      by_cases hmem : L ∈ cs <;> by_cases hLc : L = c <;>
        by_cases hadd : shouldAdd lanes rgeom L = true <;>
        by_cases hhr : hcell = hr <;>
        simp_all [List.mem_cons, Finset.insert_idem]

/-- Effect of processing one trajectory on the accumulator cell of a lane
of the layer: its group id is inserted exactly when the record is
non-empty, starts in the cell's hour, and exactly intersects the lane. -/
theorem processTraj_apply (lanes : List OutFeature) (cm : CountsMap) (r : TrajRecord)
    (l : OutFeature) (hcell : Nat) (hn : noDupFids lanes) (hl : l ∈ lanes)
    (hh : hcell < 24) :
    processTraj lanes cm r l.lfid hcell =
      if recordHits l hcell r = true then insert r.group_id (cm l.lfid hcell)
      else cm l.lfid hcell := by
  unfold processTraj recordHits
  by_cases hemp : r.geom.isEmpty = true
  · simp [hemp]
  · rw [Bool.not_eq_true] at hemp
    simp only [hemp, Bool.false_eq_true, if_false, Bool.not_false, Bool.true_and]
    by_cases hrange : Int.fdiv r.seconds_start 3600 < 0 ∨ 23 < Int.fdiv r.seconds_start 3600
    · have hbeq : (Int.fdiv r.seconds_start 3600 == (hcell : Int)) = false := by
        rw [beq_eq_false_iff_ne]
        intro hEq
        omega
      simp [hrange, hbeq]
    · have h0 : 0 ≤ Int.fdiv r.seconds_start 3600 := by omega
      simp only [hrange, if_false]
      rw [foldl_candStep_apply]
      have hsa : shouldAdd lanes r.geom l.lfid =
          l.geom.intersects r.geom := by
        unfold shouldAdd
        rw [getFeature_eq_some lanes l hn hl]
      by_cases hint : l.geom.intersects r.geom = true
      · have hmem : l.lfid ∈ spatialQuery lanes r.geom.boundingBox := by
          refine mem_spatialQuery lanes _ l hl ?ov
          rw [overlaps_true_comm]
          exact intersects_overlaps l.geom r.geom hint
        by_cases hcellEq : hcell = (Int.fdiv r.seconds_start 3600).toNat
        · have hbeq : (Int.fdiv r.seconds_start 3600 == (hcell : Int)) = true := by
            rw [beq_iff_eq]
            omega
          simp [hmem, hsa, hint, hcellEq, hbeq, h0]
        · have hbeq : (Int.fdiv r.seconds_start 3600 == (hcell : Int)) = false := by
            rw [beq_eq_false_iff_ne]
            intro hEq
            omega
          simp [hsa, hint, hcellEq, hbeq]
      · rw [Bool.not_eq_true] at hint
        simp [hsa, hint]

/-- Cell-wise description of folding the counting step over a trajectory
list, starting from an arbitrary accumulator. -/
theorem foldl_processTraj_apply (lanes : List OutFeature) (trajs : List TrajRecord)
    (cm : CountsMap) (l : OutFeature) (h : Nat) (hn : noDupFids lanes)
    (hl : l ∈ lanes) (hh : h < 24) :
    (trajs.foldl (processTraj lanes) cm) l.lfid h =
      cm l.lfid h ∪ ((trajs.filter (recordHits l h)).map TrajRecord.group_id).toFinset := by
  induction trajs generalizing cm with
  | nil => simp
  | cons r ts ih =>
      rw [List.foldl_cons, ih]
      by_cases hr : recordHits l h r = true
      · rw [processTraj_apply lanes cm r l h hn hl hh, if_pos hr,
          List.filter_cons_of_pos hr, List.map_cons, List.toFinset_cons,
          Finset.insert_union, Finset.union_insert]
      · rw [processTraj_apply lanes cm r l h hn hl hh, if_neg hr,
          List.filter_cons_of_neg hr]

/-- Closed form of the counting pass: the `(lane, hour)` accumulator cell
is the deduplicated set of group ids of exactly those trajectory records
that are non-empty, start in that hour, and intersect that lane. -/
theorem countingPass_cell (lanes : List OutFeature) (trajs : List TrajRecord)
    (l : OutFeature) (h : Nat) (hn : noDupFids lanes) (hl : l ∈ lanes) (hh : h < 24) :
    countingPass lanes trajs l.lfid h =
      ((trajs.filter (recordHits l h)).map TrajRecord.group_id).toFinset := by
  unfold countingPass
  rw [foldl_processTraj_apply lanes trajs initCounts l h hn hl hh]
  simp [initCounts]

/-- A non-empty list all of whose elements equal `g` dedups to `{g}`. -/
theorem toFinset_const (xs : List String) (g : String) (hne : xs ≠ [])
    (hall : ∀ x ∈ xs, x = g) : xs.toFinset = {g} := by
  induction xs with
  | nil => simp at hne
  | cons y ys ih =>
      have hy : y = g := hall y (List.mem_cons_self y ys)
      subst hy
      cases ys with
      | nil => simp
      | cons z zs =>
          rw [List.toFinset_cons,
            ih (by simp) (fun x hx => hall x (List.mem_cons_of_mem _ hx))]
          simp

/-- The `daily_unique` fold equals the finite union of the 24 per-hour
group sets. -/
theorem dailySet_eq_biUnion (cm : CountsMap) (lid : Nat) :
    dailySet cm lid = (Finset.range 24).biUnion (fun h => cm lid h) := by
  have key : ∀ n : Nat, (List.range n).foldl (fun acc h => acc ∪ cm lid h) ∅ =
      (Finset.range n).biUnion (fun h => cm lid h) := by
    intro n
    induction n with
    | zero => simp
    | succ m ih =>
        rw [List.range_succ, List.foldl_append, List.foldl_cons, List.foldl_nil, ih,
          Finset.range_succ, Finset.biUnion_insert]
        exact Finset.union_comm _ _
  exact key 24

/-- Cardinality of a union of indexed sets over `range n` equals the sum
of the cardinalities exactly when no element occurs under two distinct
indices. -/
theorem card_biUnion_range_eq_iff (t : Nat → Finset String) (n : Nat) :
    ((Finset.range n).biUnion t).card = ∑ h ∈ Finset.range n, (t h).card ↔
      ∀ g h1 h2, h1 < n → h2 < n → g ∈ t h1 → g ∈ t h2 → h1 = h2 := by
  induction n with
  | zero => simp
  | succ m ih =>
      rw [Finset.range_succ, Finset.biUnion_insert,
        Finset.sum_insert Finset.not_mem_range_self]
      have hkey := Finset.card_union_add_card_inter (t m) ((Finset.range m).biUnion t)
      have hle : ((Finset.range m).biUnion t).card ≤ ∑ h ∈ Finset.range m, (t h).card :=
        Finset.card_biUnion_le
      constructor
      · intro heq
        have hsplit : (t m ∩ (Finset.range m).biUnion t).card = 0 ∧
            ((Finset.range m).biUnion t).card = ∑ h ∈ Finset.range m, (t h).card := by
          omega
        have hinter : t m ∩ (Finset.range m).biUnion t = ∅ :=
          Finset.card_eq_zero.mp hsplit.1
        have hnodup := ih.mp hsplit.2
        intro g h1 h2 hh1 hh2 hg1 hg2
        rcases Nat.lt_succ_iff_lt_or_eq.mp hh1 with hh1' | hEq1
        · rcases Nat.lt_succ_iff_lt_or_eq.mp hh2 with hh2' | hEq2
          · exact hnodup g h1 h2 hh1' hh2' hg1 hg2
          · exfalso
            have hgmem : g ∈ t m ∩ (Finset.range m).biUnion t :=
              Finset.mem_inter.mpr
                ⟨hEq2 ▸ hg2, Finset.mem_biUnion.mpr ⟨h1, Finset.mem_range.mpr hh1', hg1⟩⟩
            rw [hinter] at hgmem
            exact absurd hgmem (Finset.not_mem_empty g)
        · rcases Nat.lt_succ_iff_lt_or_eq.mp hh2 with hh2' | hEq2
          · exfalso
            have hgmem : g ∈ t m ∩ (Finset.range m).biUnion t :=
              Finset.mem_inter.mpr
                ⟨hEq1 ▸ hg1, Finset.mem_biUnion.mpr ⟨h2, Finset.mem_range.mpr hh2', hg2⟩⟩
            rw [hinter] at hgmem
            exact absurd hgmem (Finset.not_mem_empty g)
          · omega
      · intro hnodup
        have hinter : t m ∩ (Finset.range m).biUnion t = ∅ := by
          rw [Finset.eq_empty_iff_forall_not_mem]
          intro g hg
          obtain ⟨hgm, hgU⟩ := Finset.mem_inter.mp hg
          obtain ⟨h1, hh1, hg1⟩ := Finset.mem_biUnion.mp hgU
          have hh1' := Finset.mem_range.mp hh1
          have hcontra : h1 = m :=
            hnodup g h1 m (Nat.lt_succ_of_lt hh1') (Nat.lt_succ_self m) hg1 hgm
          omega
        have hinner : ((Finset.range m).biUnion t).card =
            ∑ h ∈ Finset.range m, (t h).card :=
          ih.mpr (fun g h1 h2 hh1 hh2 hg1 hg2 =>
            hnodup g h1 h2 (Nat.lt_succ_of_lt hh1) (Nat.lt_succ_of_lt hh2) hg1 hg2)
        have hic : (t m ∩ (Finset.range m).biUnion t).card = 0 := by
          rw [hinter]
          simp
        omega

/-- Extraction by the combined expression, described through positional
enumeration: when the feature ids of the collection are the consecutive
integers starting at `n`, each feature's `@id` is `n` plus its position. -/
theorem extract_eq_enumFrom (windows : List (Nat × Nat)) (k n : Nat)
    (trajs : List TrajRecord)
    (hfid : trajs.map TrajRecord.fid = List.range' n trajs.length) :
    extractByExpression windows k trajs =
      ((trajs.enumFrom n).filter
        (fun p => inWindows windows p.2.seconds_start && p.1 % k == 0)).map Prod.snd := by
  induction trajs generalizing n with
  | nil => rfl
  | cons t ts ih =>
      rw [List.map_cons, List.length_cons, List.range'_succ] at hfid
      have hfid1 : t.fid = n := (List.cons.injEq _ _ _ _ ▸ hfid).1
      have hfid2 : ts.map TrajRecord.fid = List.range' (n + 1) ts.length :=
        (List.cons.injEq _ _ _ _ ▸ hfid).2
      have hs : sampleExpr windows k t =
          (inWindows windows t.seconds_start && n % k == 0) := by
        unfold sampleExpr
        rw [hfid1]
      unfold extractByExpression at ih ⊢
      rw [List.enumFrom_cons, List.filter_cons, List.filter_cons, hs]
      by_cases hc : (inWindows windows t.seconds_start && n % k == 0) = true
      · rw [if_pos hc, if_pos hc, List.map_cons, ih (n + 1) hfid2]
      · rw [if_neg hc, if_neg hc, ih (n + 1) hfid2]

/-- C1: if N ≥ 1 trajectory records share one group id, each with
non-empty geometry intersecting lane `l` and each starting in hour `h`,
the unscaled count in cell `(l, h)` after the counting pass is exactly 1,
not N; moreover inserting an already-present group id into a cell's
accumulator set is a no-op. -/
theorem c1_dedup_per_cell (lanes : List OutFeature) (trajs : List TrajRecord)
    (l : OutFeature) (g : String) (h : Nat)
    (hn : noDupFids lanes) (hl : l ∈ lanes) (hh : h < 24) (hne : trajs ≠ [])
    (hgrp : ∀ r ∈ trajs, r.group_id = g)
    (hgeom : ∀ r ∈ trajs, r.geom.isEmpty = false)
    (hhour : ∀ r ∈ trajs, Int.fdiv r.seconds_start 3600 = (h : Int))
    (hint : ∀ r ∈ trajs, l.geom.intersects r.geom = true) :
    (countingPass lanes trajs l.lfid h).card = 1 ∧
      ∀ cm lid h0 g0, g0 ∈ cm lid h0 → addGroup cm lid h0 g0 = cm := by
  constructor
  · rw [countingPass_cell lanes trajs l h hn hl hh]
    have hfilter : trajs.filter (recordHits l h) = trajs := by
      rw [List.filter_eq_self]
      intro r hr
      unfold recordHits
      rw [hgeom r hr, hhour r hr, hint r hr]
      simp
    rw [hfilter,
      toFinset_const (trajs.map TrajRecord.group_id) g (by simpa using hne)
        (fun x hx => by
          obtain ⟨r, hr, hxr⟩ := List.mem_map.mp hx
          rw [← hxr]
          exact hgrp r hr)]
    exact Finset.card_singleton g
  · intro cm lid h0 g0 hg0
    funext l' h'
    unfold addGroup
    by_cases hc : l' = lid ∧ h' = h0
    · rw [if_pos hc]
      obtain ⟨rfl, rfl⟩ := hc
      exact Finset.insert_eq_self.mpr hg0
    · rw [if_neg hc]

/-- Witness for C1: two records of group "B", both intersecting the first
example lane at hour 7, leave a cell of cardinality 1. -/
theorem c1_dedup_per_cell_witness :
    (countingPass [laneA] [trajB1, trajB2] laneA.lfid 7).card = 1 ∧
      ∀ cm lid h0 g0, g0 ∈ cm lid h0 → addGroup cm lid h0 g0 = cm :=
  c1_dedup_per_cell [laneA] [trajB1, trajB2] laneA "B" 7 (by decide)
    (List.mem_cons_self _ _) (by decide) (by decide) (by decide) (by decide)
    (by decide) (by decide)

/-- C2: the extraction stage keeps exactly the trajectories whose
`seconds_start` lies in a configured window and whose `@id` — equal to the
0-based position when feature ids enumerate the collection — is divisible
by the sampling stride. -/
theorem c2_sampler_selects (windows : List (Nat × Nat)) (k : Nat)
    (trajs : List TrajRecord)
    (hfid : trajs.map TrajRecord.fid = List.range trajs.length) :
    extractByExpression windows k trajs =
      (trajs.enum.filter
        (fun p => inWindows windows p.2.seconds_start && p.1 % k == 0)).map Prod.snd := by
  have h0 : trajs.map TrajRecord.fid = List.range' 0 trajs.length := by
    rw [hfid, List.range_eq_range']
  rw [extract_eq_enumFrom windows k 0 trajs h0]
  rfl

/-- Witness for C2, scenario 4 of the spec: stride 6 with 12 in-window
trajectories at positions 0..11 selects exactly the two at positions 0
and 6. -/
theorem c2_sampler_selects_witness :
    extractByExpression WINDOWS 6 twelvePeak = [peakTraj 0, peakTraj 6] :=
  (c2_sampler_selects WINDOWS 6 twelvePeak (by decide)).trans (by decide)

/-- C4: the lane total of v3.5 is the cardinality of the union of the 24
raw per-hour group sets; that cardinality is at most the sum of the 24
per-hour cardinalities, with equality exactly when no group appears in
two distinct hours; and the scaling factor is applied to the union
cardinality itself. -/
theorem c4_total_union (cm : CountsMap) (f : OutFeature) (k : Nat) :
    dailySet cm f.lfid = (Finset.range 24).biUnion (fun h => cm f.lfid h) ∧
    (dailySet cm f.lfid).card ≤ ∑ h ∈ Finset.range 24, (cm f.lfid h).card ∧
    ((dailySet cm f.lfid).card = ∑ h ∈ Finset.range 24, (cm f.lfid h).card ↔
      ∀ g h1 h2, h1 < 24 → h2 < 24 → g ∈ cm f.lfid h1 → g ∈ cm f.lfid h2 → h1 = h2) ∧
    (finalizeFeature35 true k cm f).total_cnt = (dailySet cm f.lfid).card * k ∧
    (finalizeFeature35 false k cm f).total_cnt = (dailySet cm f.lfid).card := by
  refine ⟨dailySet_eq_biUnion cm f.lfid, ?le2, ?iff2, rfl, rfl⟩
  · rw [dailySet_eq_biUnion]
    exact Finset.card_biUnion_le
  · rw [dailySet_eq_biUnion]
    exact card_biUnion_range_eq_iff (fun h => cm f.lfid h) 24

/-- C5: each finalized hourly cell equals the unscaled deduplicated
cardinality times the factor when scaling is on, equals it exactly when
scaling is off, and the unscaled count is non-negative; this holds in
both script variants. -/
theorem c5_scaling_linearity (cm : CountsMap) (f : OutFeature) (k h : Nat)
    (hh : h < 24) :
    (finalizeFeature35 true k cm f).hcounts h = (cm f.lfid h).card * k ∧
    (finalizeFeature35 false k cm f).hcounts h = (cm f.lfid h).card ∧
    (finalizeFeatureV1 true k cm f).hcounts h = (cm f.lfid h).card * k ∧
    (finalizeFeatureV1 false k cm f).hcounts h = (cm f.lfid h).card ∧
    0 ≤ (cm f.lfid h).card := by
  refine ⟨?p1, ?p2, ?p3, ?p4, Nat.zero_le _⟩ <;>
    simp [finalizeFeature35, finalizeFeatureV1, scaleCount, hh]

/-- Witness for C5 at a concrete accumulator holding one group for lane
fid 1, hour 7. -/
theorem c5_scaling_linearity_witness :
    (finalizeFeature35 true 5 cmExample laneA).hcounts 7 = (cmExample laneA.lfid 7).card * 5 ∧
    (finalizeFeature35 false 5 cmExample laneA).hcounts 7 = (cmExample laneA.lfid 7).card ∧
    (finalizeFeatureV1 true 5 cmExample laneA).hcounts 7 = (cmExample laneA.lfid 7).card * 5 ∧
    (finalizeFeatureV1 false 5 cmExample laneA).hcounts 7 = (cmExample laneA.lfid 7).card ∧
    0 ≤ (cmExample laneA.lfid 7).card :=
  c5_scaling_linearity cmExample laneA 5 7 (by decide)

/-- C6: the hour bucket is `floor(seconds_start / 3600)` (Python floor
division, `Int.fdiv`), and a trajectory whose bucket falls outside
`[0, 23]` leaves the accumulator untouched; in particular
`seconds_start = 86400` (hour 24) and any negative `seconds_start` are
skipped. -/
theorem c6_hour_out_of_range_skipped (lanes : List OutFeature) (cm : CountsMap)
    (r : TrajRecord) :
    (Int.fdiv r.seconds_start 3600 < 0 ∨ 23 < Int.fdiv r.seconds_start 3600 →
      processTraj lanes cm r = cm) ∧
    (r.seconds_start = 86400 → processTraj lanes cm r = cm) ∧
    (r.seconds_start < 0 → processTraj lanes cm r = cm) := by
  have key : (Int.fdiv r.seconds_start 3600 < 0 ∨ 23 < Int.fdiv r.seconds_start 3600) →
      processTraj lanes cm r = cm := by
    intro hcond
    unfold processTraj
    by_cases hemp : r.geom.isEmpty = true
    · simp [hemp]
    · rw [Bool.not_eq_true] at hemp
      simp [hemp, hcond]
  refine ⟨key, ?h86400, ?hneg⟩
  · intro hs
    apply key
    rw [hs]
    right
    decide
  · intro hs
    apply key
    left
    exact Int.fdiv_neg' hs (by decide)

/-- Witness for C6: a record with `seconds_start = 86400` contributes to
no lane cell. -/
theorem c6_hour_out_of_range_skipped_witness :
    processTraj lanesAB initCounts traj86400 = initCounts :=
  (c6_hour_out_of_range_skipped lanesAB initCounts traj86400).2.1 rfl

/-- C8: the count-then-scale computation is deterministic in the strong
sense that the final cell sets and finalized hourly counts do not depend
on the iteration order of the trajectory collection or of the lane layer
(and hence of the candidate lists the index query derives from it). -/
theorem c8_determinism (lanes lanes' : List OutFeature)
    (trajs trajs' : List TrajRecord) (l : OutFeature) (h : Nat) (se : Bool) (k : Nat)
    (hn : noDupFids lanes) (hl : l ∈ lanes) (hh : h < 24)
    (hT : trajs.Perm trajs') (hL : lanes.Perm lanes') :
    countingPass lanes trajs l.lfid h = countingPass lanes' trajs' l.lfid h ∧
    (finalizeFeature35 se k (countingPass lanes trajs) l).hcounts h =
      (finalizeFeature35 se k (countingPass lanes' trajs') l).hcounts h := by
  have hn' : noDupFids lanes' := by
    unfold noDupFids at hn ⊢
    exact ((hL.map OutFeature.lfid).nodup_iff).mp hn
  have hl' : l ∈ lanes' := hL.mem_iff.mp hl
  have hcell : countingPass lanes trajs l.lfid h = countingPass lanes' trajs' l.lfid h := by
    rw [countingPass_cell lanes trajs l h hn hl hh,
      countingPass_cell lanes' trajs' l h hn' hl' hh]
    exact List.toFinset_eq_of_perm _ _ ((hT.filter (recordHits l h)).map TrajRecord.group_id)
  refine ⟨hcell, ?fin⟩
  simp only [finalizeFeature35]
  rw [if_pos hh, if_pos hh, hcell]

/-- Witness for C8: reversing both the lane layer and the trajectory list
leaves the hour-7 cell of the first example lane unchanged. -/
theorem c8_determinism_witness :
    countingPass lanesAB [trajB1, trajBoth] laneA.lfid 7 =
      countingPass [laneB, laneA] [trajBoth, trajB1] laneA.lfid 7 ∧
    (finalizeFeature35 true 5 (countingPass lanesAB [trajB1, trajBoth]) laneA).hcounts 7 =
      (finalizeFeature35 true 5 (countingPass [laneB, laneA] [trajBoth, trajB1]) laneA).hcounts 7 :=
  c8_determinism lanesAB [laneB, laneA] [trajB1, trajBoth] [trajBoth, trajB1]
    laneA 7 true 5 (by decide) (List.mem_cons_self _ _) (by decide)
    (List.Perm.swap trajBoth trajB1 []) (List.Perm.swap laneB laneA [])

/-- C9: finalization (in both variants) rewrites only the hourly count
attributes and, where present, `total_cnt`; every lane's id string and
polygon geometry are unchanged between lane creation and final output. -/
theorem c9_frame_only_counts (lanes : List OutFeature) (cm : CountsMap)
    (se : Bool) (k : Nat) :
    (finalizeLayer35 se k cm lanes).map (fun f => (f.enviid, f.geom)) =
      lanes.map (fun f => (f.enviid, f.geom)) ∧
    (finalizeLayerV1 se k cm lanes).map (fun f => (f.enviid, f.geom)) =
      lanes.map (fun f => (f.enviid, f.geom)) := by
  constructor <;>
    simp [finalizeLayer35, finalizeLayerV1, finalizeFeature35, finalizeFeatureV1]

/-- C10: deduplication is per lane, never across lanes: a single record
hitting several distinct lanes in its start hour puts its group id into
each of those lanes' `(lane, hour)` sets, one unit per intersected lane. -/
theorem c10_dedup_per_lane_not_across (lanes : List OutFeature) (r : TrajRecord)
    (h : Nat) (hn : noDupFids lanes) (hh : h < 24) :
    ∀ l ∈ lanes, recordHits l h r = true →
      r.group_id ∈ countingPass lanes [r] l.lfid h ∧
        (countingPass lanes [r] l.lfid h).card = 1 := by
  intro l hl hhit
  rw [countingPass_cell lanes [r] l h hn hl hh]
  have hfilter : [r].filter (recordHits l h) = [r] := by
    rw [List.filter_eq_self]
    intro a ha
    rw [List.mem_singleton.mp ha]
    exact hhit
  rw [hfilter]
  constructor
  · simp
  · simp

/-- Witness for C10: the record of group "G" crosses both example lanes at
hour 7 and contributes one unit to each lane's hour-7 cell. -/
theorem c10_dedup_per_lane_not_across_witness :
    (trajBoth.group_id ∈ countingPass lanesAB [trajBoth] laneA.lfid 7 ∧
      (countingPass lanesAB [trajBoth] laneA.lfid 7).card = 1) ∧
    (trajBoth.group_id ∈ countingPass lanesAB [trajBoth] laneB.lfid 7 ∧
      (countingPass lanesAB [trajBoth] laneB.lfid 7).card = 1) :=
  ⟨c10_dedup_per_lane_not_across lanesAB trajBoth 7 (by decide) (by decide)
      laneA (List.mem_cons_self _ _) (by decide),
    c10_dedup_per_lane_not_across lanesAB trajBoth 7 (by decide) (by decide)
      laneB (List.mem_cons_of_mem laneA (List.mem_cons_self laneB [])) (by decide)⟩

/-- Counterexample for C3: with well-formed inputs whose extracted sample
is empty, `main()` of v3.5 does not abort; it runs the whole pipeline and
returns output (here with zero lanes) instead of a caller-visible
failure. -/
theorem c3_counterexample :
    extractByExpression cfg0.windows cfg0.samplingRate inpEmptySample.trajs = [] ∧
    main35 ops0 cfg0 inpEmptySample = Except.ok ⟨[]⟩ := by
  constructor
  · decide
  · rfl

/-- C3 as amended: when no trajectory satisfies the sampling predicate
(and the file, validity and CRS pre-checks pass), the run is NOT aborted —
lane building proceeds on the empty sample and the pipeline completes,
returning an output collection. -/
theorem c3_amended_no_abort (ops : GeomOps) (cfg : Config) (inp : RunInput)
    (h1 : inp.trajFileExists = true) (h2 : inp.interFileExists = true)
    (h3 : inp.trajValid = true) (h4 : inp.interValid = true)
    (h5 : inp.trajCrsGeographic = false) (h6 : inp.interCrsGeographic = false)
    (_hempty : extractByExpression cfg.windows cfg.samplingRate inp.trajs = []) :
    ∃ out : RunOutput, main35 ops cfg inp = Except.ok out := by
  refine ⟨⟨finalizeLayer35 cfg.scalingEnabled cfg.scalingFactor
    (countingPass (buildLanes ops cfg inp.trajs inp.interGeoms) inp.trajs)
    (buildLanes ops cfg inp.trajs inp.interGeoms)⟩, ?run⟩
  unfold main35
  simp [h1, h2, h3, h4, h5, h6]

/-- Witness for C3's amended statement at the concrete empty-sample
input. -/
theorem c3_amended_no_abort_witness :
    ∃ out : RunOutput, main35 ops0 cfg0 inpEmptySample = Except.ok out :=
  c3_amended_no_abort ops0 cfg0 inpEmptySample rfl rfl rfl rfl rfl rfl (by decide)

/-- Counterexample for C7: in the clipping variant, a study-area layer in
a geographic CRS — a geometry input — does not cause the run to be
rejected: `main()` completes and returns output. -/
theorem c7_counterexample :
    inpBadAreaCrs.areaCrsGeographic = true ∧ cfg0.clipToStudyArea = true ∧
    mainFull ops0 cfg0 inpBadAreaCrs = Except.ok ⟨[]⟩ :=
  ⟨rfl, rfl, rfl⟩

/-- C7 as amended: a geographic CRS on the trajectory layer or on the
intersection layer is rejected before any lane geometry is built, in both
script variants; the optional study-area layer's CRS is not checked. -/
theorem c7_amended_crs_check (ops : GeomOps) (cfg : Config) (inp : RunInput)
    (h1 : inp.trajFileExists = true) (h2 : inp.interFileExists = true)
    (h3 : inp.trajValid = true) (h4 : inp.interValid = true)
    (hg : inp.trajCrsGeographic = true ∨ inp.interCrsGeographic = true) :
    main35 ops cfg inp = Except.error RunError.nonMetricCrs ∧
    mainFull ops cfg inp = Except.error RunError.nonMetricCrs := by
  rcases hg with hg | hg <;> constructor <;>
    simp [main35, mainFull, h1, h2, h3, h4, hg]

/-- Witness for C7's amended statement: a geographic trajectory layer is
rejected by both variants. -/
theorem c7_amended_crs_check_witness :
    main35 ops0 cfg0 inpBadTrajCrs = Except.error RunError.nonMetricCrs ∧
    mainFull ops0 cfg0 inpBadTrajCrs = Except.error RunError.nonMetricCrs :=
  c7_amended_crs_check ops0 cfg0 inpBadTrajCrs rfl rfl rfl rfl (Or.inl rfl)

end LaneCount
